import Mathlib

/-!
# yaml-questionnaire: the build-then-fill pipeline of `questionnaire.go`

A shallow embedding of `getFormItems` and `GenerateAndRunQuestionnaire`.

* The reflection view of a type is a `GoType`: its kind and, for a struct, the ordered
  field list with each field's `Name`, `PkgPath`, the kind of its `Type` and the value of
  `Tag.Get("yaml")`.  Setting a field that is not exported, and a type argument of
  interface kind (for which `reflect.TypeOf` has no type to report), end the run without
  a return.
* The pointers `&fieldValue` handed to the prompts and to the two queues are addresses
  in a `Heap` of string and bool variables.
* The interactive engine is a parameter: a function from the prompt list and the heap to
  either an error or the heap it leaves behind.
* `strconv.Atoi` is embedded for both word sizes of Go's `int`.
-/

set_option autoImplicit false

namespace Questionnaire

/-! ## The reflection view of types -/

/-- The kinds of `reflect.Kind` a type can have (`Invalid` is the kind of no type). -/
inductive Kind
  | bool | int | int8 | int16 | int32 | int64
  | uint | uint8 | uint16 | uint32 | uint64 | uintptr
  | float32 | float64 | complex64 | complex128
  | array | chan | func | interface | map | pointer | slice | string | struct
  | unsafePointer
  deriving DecidableEq, Repr

/-- One entry of `typ.Field(i)`: `field.Name`, `field.PkgPath`, `field.Type.Kind()` and
`field.Tag.Get("yaml")` (the empty string when the field has no yaml tag).  `PkgPath` is
the package path that qualifies an unexported field name; reflection reports the empty
path exactly for the exported fields, those whose name begins with an upper-case
letter. -/
structure StructField where
  Name : String
  PkgPath : String
  Kind : Kind
  Tag : String
  deriving DecidableEq, Repr

/-- The method `IsExported` of `reflect.StructField`: `f.PkgPath == ""`.  Reflection sets
exported fields only. -/
def StructField.IsExported (f : StructField) : Bool := f.PkgPath = ""

/-- The `reflect.Type` of the type argument: `Kind()` and, for a struct, the fields
`Field(0) .. Field(NumField()-1)` in declaration order. -/
structure GoType where
  Kind : Kind
  fields : List StructField
  deriving DecidableEq, Repr

/-- Word size of the platform: Go's `int` has 32 or 64 bits. -/
inductive Arch
  | bits32 | bits64
  deriving DecidableEq, Repr

/-- The constant `strconv.IntSize`. -/
def intSize : Arch → Nat
  | .bits32 => 32
  | .bits64 => 64

/-! ## Values -/

/-- The value of one struct field.  `zero k` is the zero value of a field whose kind is
none of string, signed integer or bool; the pipeline never writes such a field. -/
inductive Value
  | string (s : String)
  | int (n : Int)
  | bool (b : Bool)
  | zero (k : Kind)
  deriving DecidableEq, Repr

/-- An instance of the type argument: the field values of a struct, or the (never
modified) zero value of a type of another kind. -/
inductive Instance
  | struct (fields : List Value)
  | zero (k : Kind)
  deriving DecidableEq, Repr

/-- The zero value of a field of kind `k`. -/
def zeroValue : Kind → Value
  | .string => .string ""
  | .int | .int8 | .int16 | .int32 | .int64 => .int 0
  | .bool => .bool false
  | k => .zero k

/-- The value `*new(yamlModel)`, which is also what `reflect.New(typ).Elem()` holds. -/
def zeroInstance (typ : GoType) : Instance :=
  if typ.Kind = .struct then .struct (typ.fields.map fun f => zeroValue f.Kind)
  else .zero typ.Kind

/-- Number of bits of a signed integer kind (0 for every other kind). -/
def bitsOf (arch : Arch) : Kind → Nat
  | .int => intSize arch
  | .int8 => 8
  | .int16 => 16
  | .int32 => 32
  | .int64 => 64
  | _ => 0

/-- Two's complement truncation of `x` to `bits` bits: the conversions `int8(x)`,
`int16(x)`, ... that `reflect.Value.SetInt` applies to its `int64` argument. -/
def wrap (bits : Nat) (x : Int) : Int :=
  (x + 2 ^ (bits - 1)) % 2 ^ bits - 2 ^ (bits - 1)

/-- The integer `x` is representable in a signed integer of `bits` bits. -/
def fits (bits : Nat) (x : Int) : Prop :=
  -(2 ^ (bits - 1)) ≤ x ∧ x < 2 ^ (bits - 1)

instance (bits : Nat) (x : Int) : Decidable (fits bits x) := by
  unfold fits; exact inferInstance

/-! ## Errors -/

/-- The two causes `strconv.ErrSyntax` and `strconv.ErrRange`. -/
inductive ParseErr
  | ErrSyntax
  | ErrRange
  deriving DecidableEq, Repr

/-- A `*strconv.NumError`: the failing function, the input and the cause. -/
structure NumError where
  Func : String
  Num : String
  Err : ParseErr
  deriving DecidableEq, Repr

/-- The errors `GenerateAndRunQuestionnaire` returns.
* `notAStruct k`: `"provided model must be a struct, got %s"` with `typ.Kind()`;
* `unsupportedFieldType k`: `"unsupported field type: %s"` with `field.Type.Kind()`;
* `invalidInteger name err`: `"invalid integer value for %s: %v"` with `field.Name` and
  the error of `strconv.Atoi`;
* `engine e`: the error of `form.Run()`, passed on as it is. -/
inductive Error
  | notAStruct (k : Kind)
  | unsupportedFieldType (k : Kind)
  | invalidInteger (fieldName : String) (cause : NumError)
  | engine (e : String)
  deriving DecidableEq, Repr

/-! ## strconv.Atoi -/

/-- The helper `syntaxError(fn, str)` of strconv. -/
def syntaxError (fn str : String) : NumError := ⟨fn, str, .ErrSyntax⟩

/-- The helper `rangeError(fn, str)` of strconv. -/
def rangeError (fn str : String) : NumError := ⟨fn, str, .ErrRange⟩

/-- The digit loop of `strconv.ParseUint(s, 10, 0)` from accumulator `n`: the result
value and whether it is a syntax or a range error.  `n` is a `uint64`. -/
def parseUintLoop (arch : Arch) : List Char → Nat → Nat × Option ParseErr
  | [], n => (n, none)
  | c :: rest, n =>
    if 48 ≤ c.toNat ∧ c.toNat ≤ 57 then
      let d := c.toNat - 48
      let cutoff := (2 ^ 64 - 1) / 10 + 1
      let maxVal := 2 ^ intSize arch - 1
      if n ≥ cutoff then (maxVal, some .ErrRange)
      else
        let n10 := n * 10 % 2 ^ 64
        let n1 := (n10 + d) % 2 ^ 64
        if n1 < n10 ∨ n1 > maxVal then (maxVal, some .ErrRange)
        else parseUintLoop arch rest n1
    else (0, some .ErrSyntax)

/-- The call `strconv.ParseUint(s, 10, 0)`, on the bytes of `s`. -/
def ParseUint (arch : Arch) (s : List Char) : Nat × Option ParseErr :=
  if s = [] then (0, some .ErrSyntax) else parseUintLoop arch s 0

/-- The call `strconv.ParseInt(s, 10, 0)`: the value and the cause of the error, if any.
The error's `Num` is the whole input. -/
def ParseInt (arch : Arch) (s : List Char) : Int × Option ParseErr :=
  match s with
  | [] => (0, some .ErrSyntax)
  | c :: rest =>
    let neg := c = '-'
    let digits := if c = '+' ∨ c = '-' then rest else s
    match ParseUint arch digits with
    | (_, some .ErrSyntax) => (0, some .ErrSyntax)
    | (un, _) =>
      let cutoff := 2 ^ (intSize arch - 1)
      if ¬ neg ∧ un ≥ cutoff then ((cutoff : Nat) - 1, some .ErrRange)
      else if neg ∧ un > cutoff then (-(cutoff : Nat), some .ErrRange)
      else (if neg then -(un : Int) else (un : Int), none)

/-- The digit loop of the fast path of `strconv.Atoi`: `none` at the first byte that is
no decimal digit. -/
def atoiFastLoop : List Char → Int → Option Int
  | [], n => some n
  | c :: rest, n =>
    if 48 ≤ c.toNat ∧ c.toNat ≤ 57 then atoiFastLoop rest (n * 10 + (c.toNat - 48 : Nat))
    else none

/-- The function `strconv.Atoi`, returning Go's pair of value and error.  `len(s)` is the
length of `s` in bytes; a byte of a multi-byte character is neither a sign nor a digit. -/
def Atoi (arch : Arch) (s : String) : Int × Option NumError :=
  let sLen := s.utf8ByteSize
  if (intSize arch = 32 ∧ 0 < sLen ∧ sLen < 10) ∨ (intSize arch = 64 ∧ 0 < sLen ∧ sLen < 19) then
    match s.toList with
    | [] => (0, some (syntaxError "Atoi" s))
    | c :: rest =>
      let digits := if c = '-' ∨ c = '+' then rest else c :: rest
      if (c = '-' ∨ c = '+') ∧ rest = [] then (0, some (syntaxError "Atoi" s))
      else
        match atoiFastLoop digits 0 with
        | none => (0, some (syntaxError "Atoi" s))
        | some n => (if c = '-' then -n else n, none)
  else
    match ParseInt arch s.toList with
    | (i64, some e) => (i64, some ⟨"Atoi", s, e⟩)
    | (i64, none) => (i64, none)

/-! ## Slots, prompts, queues and the engine -/

/-- The variables `var fieldValue string` and `var fieldValue bool` that `getFormItems`
declares, one per prompt.  A pointer `&fieldValue` is an address: `nstr` and `nbool`
count the variables declared so far, `str a` and `bool a` are the contents of the
variable at address `a`. -/
structure Heap where
  str : Nat → String
  bool : Nat → Bool
  nstr : Nat
  nbool : Nat

/-- The heap before any variable is declared. -/
def Heap.empty : Heap := ⟨fun _ => "", fun _ => false, 0, 0⟩

/-- The declaration `var fieldValue string`: a new variable holding `""`, and its address. -/
def Heap.newString (h : Heap) : Nat × Heap :=
  (h.nstr, ⟨Function.update h.str h.nstr "", h.bool, h.nstr + 1, h.nbool⟩)

/-- The declaration `var fieldValue bool`: a new variable holding `false`, and its address. -/
def Heap.newBool (h : Heap) : Nat × Heap :=
  (h.nbool, ⟨h.str, Function.update h.bool h.nbool false, h.nstr, h.nbool + 1⟩)

/-- The assignment `*p = v` through a `*string`. -/
def Heap.setStr (h : Heap) (p : Nat) (v : String) : Heap :=
  ⟨Function.update h.str p v, h.bool, h.nstr, h.nbool⟩

/-- The assignment `*p = v` through a `*bool`. -/
def Heap.setBool (h : Heap) (p : Nat) (v : Bool) : Heap :=
  ⟨h.str, Function.update h.bool p v, h.nstr, h.nbool⟩

/-- A `huh.Field` as `getFormItems` builds it:
`huh.NewInput().Title(title).Value(slot)` or `huh.NewConfirm().Title(title).Value(slot)`. -/
inductive Descriptor
  | input (title : String) (slot : Nat)
  | confirm (title : String) (slot : Nat)
  deriving DecidableEq, Repr

/-- Modelled from the spec: the queue collaborator `collection.Queue`, "an ordered, FIFO
container supporting append value and remove-and-return-the-oldest-value". -/
abbrev Queue (α : Type) := List α

/-- The call `collection.New[T]()`: an empty queue. -/
def Queue.New {α : Type} : Queue α := []

/-- Modelled from the spec: `Enqueue`, "append value". -/
def Queue.Enqueue {α : Type} (q : Queue α) (x : α) : Queue α := q ++ [x]

/-- Modelled from the spec: `Dequeue`, "remove-and-return-the-oldest-value"; `none` on an
empty queue, where the spec leaves the behaviour undefined. -/
def Queue.Dequeue {α : Type} : Queue α → Option (α × Queue α)
  | [] => none
  | x :: rest => some (x, rest)

/-- The behaviour of `form.Run()` on the prompts of the group: an error, or the heap once
the session has ended. -/
abbrev Engine := List Descriptor → Heap → Except String Heap

/-- What the user enters: `text j` in the input prompt at position `j` of the group,
`confirm j` in the confirm prompt at position `j`. -/
structure User where
  text : Nat → String
  confirm : Nat → Bool

/-- Modelled from the spec: a completed session, "a blocking run operation over a group
that populates all bound slots": the prompt at position `j` stores the user's entry in
the slot it is bound to. -/
def writeAnswers (u : User) : List Descriptor → Nat → Heap → Heap
  | [], _, h => h
  | .input _ p :: rest, j, h => writeAnswers u rest (j + 1) (h.setStr p (u.text j))
  | .confirm _ p :: rest, j, h => writeAnswers u rest (j + 1) (h.setBool p (u.confirm j))

/-- The engine of a session that the user `u` completes. -/
def answering (u : User) : Engine := fun formItems h => .ok (writeAnswers u formItems 0 h)

/-- The engine of a session that ends with the error `e`. -/
def failing (e : String) : Engine := fun _ _ => .error e

/-! ## getFormItems -/

/-- The four results of `getFormItems`, and the heap with the variables it declared. -/
structure FormItems where
  formItems : List Descriptor
  strFieldValues : Queue Nat
  boolFieldValues : Queue Nat
  err : Option Error
  heap : Heap

/-- The loop `for i := 0; i < typ.NumField(); i++` of `getFormItems` over the fields not
yet visited, from the descriptors, queues and heap built so far. -/
def buildLoop : List StructField → FormItems → FormItems
  | [], acc => acc
  | field :: rest, acc =>
    let fieldName := field.Name
    let fieldTag := field.Tag
    if fieldTag = "" then buildLoop rest acc
    else
      match field.Kind with
      | .string =>
        let (fieldValue, heap) := acc.heap.newString
        buildLoop rest
          ⟨acc.formItems ++ [.input fieldName fieldValue],
            acc.strFieldValues.Enqueue fieldValue, acc.boolFieldValues, none, heap⟩
      | .int | .int8 | .int16 | .int32 | .int64 =>
        let (fieldValue, heap) := acc.heap.newString
        buildLoop rest
          ⟨acc.formItems ++ [.input fieldName fieldValue],
            acc.strFieldValues.Enqueue fieldValue, acc.boolFieldValues, none, heap⟩
      | .bool =>
        let (fieldValue, heap) := acc.heap.newBool
        buildLoop rest
          ⟨acc.formItems ++ [.confirm fieldName fieldValue],
            acc.strFieldValues, acc.boolFieldValues.Enqueue fieldValue, none, heap⟩
      | k => ⟨[], Queue.New, Queue.New, some (.unsupportedFieldType k), acc.heap⟩

/-- The function `getFormItems`, run on the heap `h`. -/
def getFormItems (typ : GoType) (h : Heap) : FormItems :=
  if typ.Kind ≠ .struct then ⟨[], Queue.New, Queue.New, some (.notAStruct typ.Kind), h⟩
  else buildLoop typ.fields ⟨[], Queue.New, Queue.New, none, h⟩

/-! ## GenerateAndRunQuestionnaire -/

/-- Why a run ends without returning: `reflect.New(nil)` for a type argument of
interface kind, a `Dequeue` on an empty queue, `typ.Field(i)` with `i` out of range, or
`SetString`, `SetInt` or `SetBool` on a field that is not exported. -/
inductive Abort
  | nilType
  | emptyQueue
  | fieldIndex
  | unexportedField
  deriving DecidableEq, Repr

/-- How a call of `GenerateAndRunQuestionnaire` ends: it returns the pair of an instance
and an error (`none` is `nil`), or it does not return. -/
inductive Outcome
  | returned (model : Instance) (err : Option Error)
  | aborted (why : Abort)
  deriving DecidableEq, Repr

/-- The state of the fill loop: the fields of `val` and the two queues. -/
structure FillState where
  val : List Value
  strFieldValues : Queue Nat
  boolFieldValues : Queue Nat
  deriving DecidableEq, Repr

/-- How the fill loop ends: all iterations done, the early return on a parse error, or
no return at all. -/
inductive FillResult
  | done (st : FillState)
  | failed (err : Error)
  | aborted (why : Abort)
  deriving DecidableEq, Repr

/-- The loop `for i := range formItems` of `GenerateAndRunQuestionnaire`: one iteration
per remaining descriptor, the iteration with index `i` working on `typ.Field(i)` and
`val.Field(i)`.  `h` is the heap the engine left.  In each case the argument of the
setter is evaluated first (the dequeue and, for an integer, the parse with its early
return); the setter itself does not return on a field that is not exported. -/
def fillLoop (arch : Arch) (typ : GoType) (h : Heap) :
    List Descriptor → Nat → FillState → FillResult
  | [], _, st => .done st
  | _ :: rest, i, st =>
    match typ.fields[i]? with
    | none => .aborted .fieldIndex
    | some field =>
      match field.Kind with
      | .string =>
        match st.strFieldValues.Dequeue with
        | none => .aborted .emptyQueue
        | some (p, q) =>
          if field.IsExported then
            fillLoop arch typ h rest (i + 1)
              ⟨st.val.set i (.string (h.str p)), q, st.boolFieldValues⟩
          else .aborted .unexportedField
      | .int | .int8 | .int16 | .int32 | .int64 =>
        match st.strFieldValues.Dequeue with
        | none => .aborted .emptyQueue
        | some (p, q) =>
          match Atoi arch (h.str p) with
          | (_, some err) => .failed (.invalidInteger field.Name err)
          | (intVal, none) =>
            if field.IsExported then
              fillLoop arch typ h rest (i + 1)
                ⟨st.val.set i (.int (wrap (bitsOf arch field.Kind) intVal)), q,
                  st.boolFieldValues⟩
            else .aborted .unexportedField
      | .bool =>
        match st.boolFieldValues.Dequeue with
        | none => .aborted .emptyQueue
        | some (p, q) =>
          if field.IsExported then
            fillLoop arch typ h rest (i + 1)
              ⟨st.val.set i (.bool (h.bool p)), st.strFieldValues, q⟩
          else .aborted .unexportedField
      | _ => fillLoop arch typ h rest (i + 1) st

/-- The fields of an instance (none for an instance of a type that is no struct). -/
def Instance.fieldValues : Instance → List Value
  | .struct vs => vs
  | .zero _ => []

/-- The function `GenerateAndRunQuestionnaire[yamlModel]()`, for the engine behaviour
`run` and with the type argument `yamlModel` given by its reflection type.  For a type
argument of interface kind `model` is the nil interface, `reflect.TypeOf(model)` is nil
and `reflect.New` does not return. -/
def GenerateAndRunQuestionnaire (arch : Arch) (yamlModel : GoType) (run : Engine) : Outcome :=
  let model := zeroInstance yamlModel
  if yamlModel.Kind = .interface then .aborted .nilType
  else
    let typ := yamlModel
    let built := getFormItems typ Heap.empty
    match built.err with
    | some err => .returned model (some err)
    | none =>
      match run built.formItems built.heap with
      | .error err => .returned model (some (.engine err))
      | .ok h =>
        match fillLoop arch typ h built.formItems 0
            ⟨model.fieldValues, built.strFieldValues, built.boolFieldValues⟩ with
        | .done st => .returned (.struct st.val) none
        | .failed err => .returned model (some err)
        | .aborted why => .aborted why

/-! ## Vocabulary of the statements -/

/-- The kinds `getFormItems` has a prompt for: string, the signed integers and bool. -/
def supported : Kind → Bool
  | .string | .int | .int8 | .int16 | .int32 | .int64 | .bool => true
  | _ => false

/-- The signed integer kinds. -/
def intLike : Kind → Bool
  | .int | .int8 | .int16 | .int32 | .int64 => true
  | _ => false

/-- The kinds collected as text: string and the signed integers. -/
def textLike : Kind → Bool
  | .string | .int | .int8 | .int16 | .int32 | .int64 => true
  | _ => false

/-- The field carries a non-empty yaml tag. -/
def tagged (f : StructField) : Bool := f.Tag ≠ ""

/-- The field is tagged and its kind has no prompt. -/
def unsupportedField (f : StructField) : Bool := tagged f && !supported f.Kind

/-- The title of a prompt. -/
def Descriptor.title : Descriptor → String
  | .input t _ => t
  | .confirm t _ => t

/-- The prompt is a confirm (and not a text input). -/
def Descriptor.isConfirm : Descriptor → Bool
  | .input _ _ => false
  | .confirm _ _ => true

/-- The string slot a text input is bound to. -/
def Descriptor.inputSlot : Descriptor → Option Nat
  | .input _ p => some p
  | .confirm _ _ => none

/-- The bool slot a confirm is bound to. -/
def Descriptor.confirmSlot : Descriptor → Option Nat
  | .input _ _ => none
  | .confirm _ p => some p

/-- The prompts of the tagged fields of `fs`, in order, when string variables are
declared from address `a` on and bool variables from address `b` on. -/
def plan : List StructField → Nat → Nat → List Descriptor
  | [], _, _ => []
  | f :: rest, a, b =>
    if f.Tag = "" then plan rest a b
    else if textLike f.Kind then .input f.Name a :: plan rest (a + 1) b
    else if f.Kind = .bool then .confirm f.Name b :: plan rest a (b + 1)
    else plan rest a b

/-- In the heap `h` every prompt of the list holds what the user entered in it, the
first prompt of the list being the one at position `j` of the group. -/
def Answered (u : User) (h : Heap) : List Descriptor → Nat → Prop
  | [], _ => True
  | .input _ p :: rest, j => h.str p = u.text j ∧ Answered u h rest (j + 1)
  | .confirm _ p :: rest, j => h.bool p = u.confirm j ∧ Answered u h rest (j + 1)

/-- The value a field of a supported kind receives from the entry at prompt position `j`:
the text, the parsed integer converted to the width of the field, or the boolean. -/
def entered (arch : Arch) (u : User) (f : StructField) (j : Nat) : Value :=
  match f.Kind with
  | .string => .string (u.text j)
  | .int | .int8 | .int16 | .int32 | .int64 =>
    .int (wrap (bitsOf arch f.Kind) (Atoi arch (u.text j)).1)
  | .bool => .bool (u.confirm j)
  | k => .zero k

/-- The fields of `val` at positions `i, i+1, ...` overwritten with the entries for the
fields `fs`. -/
def store (arch : Arch) (u : User) : List StructField → Nat → List Value → List Value
  | [], _, val => val
  | f :: rest, i, val => store arch u rest (i + 1) (val.set i (entered arch u f i))

/-- The first integer field of `fs` (the fields at positions `i, i+1, ...`) whose entry
`strconv.Atoi` rejects: its name and the error. -/
def firstBad (arch : Arch) (u : User) : List StructField → Nat → Option (String × NumError)
  | [], _ => none
  | f :: rest, i =>
    if intLike f.Kind then
      match (Atoi arch (u.text i)).2 with
      | some e => some (f.Name, e)
      | none => firstBad arch u rest (i + 1)
    else firstBad arch u rest (i + 1)

/-- The struct type with the fields `fs`. -/
def structOf (fs : List StructField) : GoType := ⟨.struct, fs⟩

/-! ## Example types and sessions -/

/-- The struct with the fields Name (string, tag name), Age (int, tag age) and Active
(bool, tag active). -/
def person : List StructField :=
  [⟨"Name", "", .string, "name"⟩, ⟨"Age", "", .int, "age"⟩, ⟨"Active", "", .bool, "active"⟩]

/-- The user who enters Alice, 30 and yes. -/
def alice : User := ⟨fun j => if j = 1 then "30" else "Alice", fun _ => true⟩

/-- The user who enters Alice, thirty and yes. -/
def aliceThirty : User := ⟨fun j => if j = 1 then "thirty" else "Alice", fun _ => true⟩

/-- The struct with an untagged string field Skip before the tagged string field Name. -/
def skipFirst : List StructField := [⟨"Skip", "", .string, ""⟩, ⟨"Name", "", .string, "name"⟩]

/-- The struct with the single field Level (int8, tag level). -/
def narrow : List StructField := [⟨"Level", "", .int8, "level"⟩]

/-- The user who enters 300 in every text prompt. -/
def threeHundred : User := ⟨fun _ => "300", fun _ => false⟩

/-- The struct with the fields Name (string), Ratio (float64) and Count (uint), all tagged. -/
def mixed : List StructField :=
  [⟨"Name", "", .string, "name"⟩, ⟨"Ratio", "", .float64, "ratio"⟩, ⟨"Count", "", .uint, "count"⟩]

/-- The struct with the tagged fields Name (string) and Active (bool) around the untagged
field Cache (map). -/
def sparse : List StructField :=
  [⟨"Name", "", .string, "name"⟩, ⟨"Cache", "", .map, ""⟩, ⟨"Active", "", .bool, "active"⟩]

/-- The struct with an untagged bool field Skip before the tagged string field Name. -/
def boolFirst : List StructField := [⟨"Skip", "", .bool, ""⟩, ⟨"Name", "", .string, "name"⟩]

/-- The struct with an untagged float64 field Skip before the tagged string field Name. -/
def floatFirst : List StructField := [⟨"Skip", "", .float64, ""⟩, ⟨"Name", "", .string, "name"⟩]

/-- The struct with the tagged fields Name (string) and Age (int) before the untagged
fields Cache (map) and Note (string). -/
def taggedFirst : List StructField :=
  [⟨"Name", "", .string, "name"⟩, ⟨"Age", "", .int, "age"⟩, ⟨"Cache", "", .map, ""⟩, ⟨"Note", "", .string, ""⟩]

/-- The struct with the single field name (string, tag name), which is not exported. -/
def unexportedName : List StructField := [⟨"name", "main", .string, "name"⟩]

/-- The struct with the single field Big (int64, tag big). -/
def wide : List StructField := [⟨"Big", "", .int64, "big"⟩]

/-- The untagged string field Note. -/
def note : List StructField := [⟨"Note", "", .string, ""⟩]

/-- The user who enters 3000000000 in every text prompt. -/
def threeBillion : User := ⟨fun _ => "3000000000", fun _ => false⟩

/-! ## getFormItems: lemmas -/

theorem buildLoop_unsupported (fs : List StructField) (acc : FormItems) (f : StructField)
    (hf : fs.find? unsupportedField = some f) :
    (buildLoop fs acc).formItems = [] ∧ (buildLoop fs acc).strFieldValues = [] ∧
      (buildLoop fs acc).boolFieldValues = [] ∧
      (buildLoop fs acc).err = some (.unsupportedFieldType f.Kind) := by
  induction fs generalizing acc with
  | nil => simp at hf
  | cons g rest ih =>
    rw [List.find?_cons] at hf
    by_cases hg : unsupportedField g = true
    · rw [hg] at hf
      simp only [Option.some.injEq] at hf
      subst hf
      simp only [unsupportedField, tagged, Bool.and_eq_true, decide_eq_true_eq,
        Bool.not_eq_true'] at hg
      obtain ⟨htag, hk⟩ := hg
      unfold buildLoop
      simp only [htag, if_false]
      cases hkind : g.Kind <;> simp [hkind, supported, Queue.New] at hk ⊢
    · simp only [hg] at hf
      simp only [unsupportedField, tagged, Bool.and_eq_true, decide_eq_true_eq,
        Bool.not_eq_true', not_and, Bool.not_eq_false] at hg
      unfold buildLoop
      by_cases htag : g.Tag = ""
      · simp only [htag, if_true]
        exact ih acc hf
      · have hk := hg htag
        simp only [htag, if_false]
        cases hkind : g.Kind <;> simp [hkind, supported] at hk ⊢ <;> exact ih _ hf

theorem buildLoop_supported (fs : List StructField) (acc : FormItems)
    (hfs : ∀ f ∈ fs, unsupportedField f = false) (hacc : acc.err = none) :
    (buildLoop fs acc).formItems = acc.formItems ++ plan fs acc.heap.nstr acc.heap.nbool ∧
      (buildLoop fs acc).strFieldValues =
        acc.strFieldValues ++ (plan fs acc.heap.nstr acc.heap.nbool).filterMap Descriptor.inputSlot ∧
      (buildLoop fs acc).boolFieldValues =
        acc.boolFieldValues ++
          (plan fs acc.heap.nstr acc.heap.nbool).filterMap Descriptor.confirmSlot ∧
      (buildLoop fs acc).err = none := by
  induction fs generalizing acc with
  | nil => simp [buildLoop, plan, hacc]
  | cons g rest ih =>
    have hg := hfs g (List.mem_cons_self _ _)
    have hrest : ∀ f ∈ rest, unsupportedField f = false :=
      fun f hf => hfs f (List.mem_cons_of_mem _ hf)
    simp only [unsupportedField, tagged, Bool.and_eq_false_imp, decide_eq_true_eq,
      Bool.not_eq_false'] at hg
    unfold buildLoop plan
    by_cases htag : g.Tag = ""
    · simp only [htag, if_true]
      exact ih acc hrest hacc
    · have hk := hg htag
      simp only [htag, if_false]
      have hs := ih ⟨acc.formItems ++ [.input g.Name acc.heap.nstr],
        acc.strFieldValues ++ [acc.heap.nstr], acc.boolFieldValues, none,
        ⟨Function.update acc.heap.str acc.heap.nstr "", acc.heap.bool, acc.heap.nstr + 1,
          acc.heap.nbool⟩⟩ hrest rfl
      have hb := ih ⟨acc.formItems ++ [.confirm g.Name acc.heap.nbool],
        acc.strFieldValues, acc.boolFieldValues ++ [acc.heap.nbool], none,
        ⟨acc.heap.str, Function.update acc.heap.bool acc.heap.nbool false, acc.heap.nstr,
          acc.heap.nbool + 1⟩⟩ hrest rfl
      cases hkind : g.Kind <;> simp [hkind, supported] at hk ⊢ <;>
        simp [textLike, Heap.newString, Heap.newBool, Queue.Enqueue, Descriptor.inputSlot,
          Descriptor.confirmSlot] <;> first | simpa using hs | simpa using hb

/-! ## The engine and the fill loop: lemmas -/

theorem writeAnswers_frame (u : User) (fs : List StructField) (a b j : Nat) (h : Heap) :
    (∀ p, p < a → (writeAnswers u (plan fs a b) j h).str p = h.str p) ∧
      (∀ p, p < b → (writeAnswers u (plan fs a b) j h).bool p = h.bool p) := by
  induction fs generalizing a b j h with
  | nil => simp [plan, writeAnswers]
  | cons f rest ih =>
    unfold plan
    by_cases htag : f.Tag = ""
    · simp only [htag, if_true]
      exact ih a b j h
    · simp only [htag, if_false]
      by_cases ht : textLike f.Kind = true
      · simp only [ht, if_true, writeAnswers]
        obtain ⟨h1, h2⟩ := ih (a + 1) b (j + 1) (h.setStr a (u.text j))
        refine ⟨fun p hp => ?_, fun p hp => ?_⟩
        · rw [h1 p (by omega)]
          simp [Heap.setStr, Function.update, Nat.ne_of_lt hp]
        · rw [h2 p hp]
          simp [Heap.setStr]
      · simp only [ht, Bool.false_eq_true, if_false]
        by_cases hb : f.Kind = .bool
        · simp only [hb, if_true, writeAnswers]
          obtain ⟨h1, h2⟩ := ih a (b + 1) (j + 1) (h.setBool b (u.confirm j))
          refine ⟨fun p hp => ?_, fun p hp => ?_⟩
          · rw [h1 p hp]
            simp [Heap.setBool]
          · rw [h2 p (by omega)]
            simp [Heap.setBool, Function.update, Nat.ne_of_lt hp]
        · simp only [hb, if_false]
          exact ih a b j h

theorem writeAnswers_answered (u : User) (fs : List StructField) (a b j : Nat) (h : Heap) :
    Answered u (writeAnswers u (plan fs a b) j h) (plan fs a b) j := by
  induction fs generalizing a b j h with
  | nil => simp [plan, Answered]
  | cons f rest ih =>
    unfold plan
    by_cases htag : f.Tag = ""
    · simp only [htag, if_true]
      exact ih a b j h
    · simp only [htag, if_false]
      by_cases ht : textLike f.Kind = true
      · simp only [ht, if_true, writeAnswers, Answered]
        refine ⟨?_, ih (a + 1) b (j + 1) _⟩
        rw [(writeAnswers_frame u rest (a + 1) b (j + 1) _).1 a (by omega)]
        simp [Heap.setStr]
      · simp only [ht, Bool.false_eq_true, if_false]
        by_cases hb : f.Kind = .bool
        · simp only [hb, if_true, writeAnswers, Answered]
          refine ⟨?_, ih a (b + 1) (j + 1) _⟩
          rw [(writeAnswers_frame u rest a (b + 1) (j + 1) _).2 b (by omega)]
          simp [Heap.setBool]
        · simp only [hb, if_false]
          exact ih a b j h

theorem plan_untagged (fs : List StructField) (a b : Nat)
    (hfs : ∀ f ∈ fs, tagged f = false) : plan fs a b = [] := by
  induction fs with
  | nil => rfl
  | cons f rest ih =>
    have hf := hfs f (List.mem_cons_self _ _)
    simp only [tagged, ne_eq, decide_not, Bool.not_eq_false', decide_eq_true_eq] at hf
    unfold plan
    simp only [hf, if_true]
    exact ih fun g hg => hfs g (List.mem_cons_of_mem _ hg)

theorem plan_append_untagged (fs ut : List StructField) (a b : Nat)
    (hut : ∀ f ∈ ut, tagged f = false) : plan (fs ++ ut) a b = plan fs a b := by
  induction fs generalizing a b with
  | nil => simpa [plan] using plan_untagged ut a b hut
  | cons f rest ih =>
    simp only [List.cons_append]
    unfold plan
    simp only [ih]

theorem fillLoop_tagged (arch : Arch) (u : User) (h : Heap) (all : List StructField) :
    ∀ (suf : List StructField) (i a b : Nat) (val : List Value) (sq bq : List Nat),
      (∀ f ∈ suf, tagged f = true ∧ supported f.Kind = true) →
      (∀ f ∈ suf, f.IsExported = true) →
      (∀ k, k < suf.length → all[i + k]? = suf[k]?) →
      Answered u h (plan suf a b) i →
      fillLoop arch (structOf all) h (plan suf a b) i
          ⟨val, (plan suf a b).filterMap Descriptor.inputSlot ++ sq,
            (plan suf a b).filterMap Descriptor.confirmSlot ++ bq⟩ =
        match firstBad arch u suf i with
        | some (name, e) => .failed (.invalidInteger name e)
        | none => .done ⟨store arch u suf i val, sq, bq⟩ := by
  intro suf
  induction suf with
  | nil =>
    intro i a b val sq bq _ _ _ _
    simp [plan, fillLoop, firstBad, store]
  | cons f rest ih =>
    intro i a b val sq bq hsuf hexp hget hans
    obtain ⟨htag, hsup⟩ := hsuf f (List.mem_cons_self _ _)
    have hrest : ∀ g ∈ rest, tagged g = true ∧ supported g.Kind = true :=
      fun g hg => hsuf g (List.mem_cons_of_mem _ hg)
    have hexp0 : f.IsExported = true := hexp f (List.mem_cons_self _ _)
    have hexp1 : ∀ g ∈ rest, g.IsExported = true :=
      fun g hg => hexp g (List.mem_cons_of_mem _ hg)
    have hget0 : all[i]? = some f := by
      have := hget 0 (by simp)
      simpa using this
    have hget1 : ∀ k, k < rest.length → all[i + 1 + k]? = rest[k]? := by
      intro k hk
      have := hget (k + 1) (by simp; omega)
      simpa [Nat.add_assoc, Nat.add_comm 1 k] using this
    simp only [tagged, ne_eq, decide_not, Bool.not_eq_true', decide_eq_false_iff_not] at htag
    unfold plan at hans ⊢
    simp only [htag, if_false] at hans ⊢
    cases hk : f.Kind <;> simp [hk, supported] at hsup <;>
      simp only [hk, textLike, if_true, Bool.false_eq_true, if_false, Answered] at hans ⊢ <;>
      have h0 := hans.1 <;> have hans1 := hans.2
    case string =>
      have step := ih (i + 1) (a + 1) b (val.set i (.string (u.text i))) sq bq hrest hexp1 hget1 hans1
      simp [fillLoop, structOf, hget0, hk, Descriptor.inputSlot, Descriptor.confirmSlot,
        Queue.Dequeue, firstBad, intLike, store, entered, h0, hexp0] at step ⊢
      exact step
    case bool =>
      have step := ih (i + 1) a (b + 1) (val.set i (.bool (u.confirm i))) sq bq hrest hexp1 hget1 hans1
      simp [fillLoop, structOf, hget0, hk, Descriptor.inputSlot, Descriptor.confirmSlot,
        Queue.Dequeue, firstBad, intLike, store, entered, h0, hexp0] at step ⊢
      exact step
    all_goals
      have step := ih (i + 1) (a + 1) b
        (val.set i (.int (wrap (bitsOf arch f.Kind) (Atoi arch (u.text i)).1))) sq bq
        hrest hexp1 hget1 hans1
      simp only [fillLoop, structOf, hget0, hk, Descriptor.inputSlot, Descriptor.confirmSlot,
        List.filterMap_cons, List.cons_append, Queue.Dequeue, firstBad, intLike, store,
        entered, h0, hexp0, if_true] at step ⊢
      rcases hat : Atoi arch (u.text i) with ⟨v, _ | e⟩
      · simp only [hat] at step ⊢
        exact step
      · simp only [hat]

theorem store_length (arch : Arch) (u : User) (fs : List StructField) (i : Nat)
    (val : List Value) : (store arch u fs i val).length = val.length := by
  induction fs generalizing i val with
  | nil => rfl
  | cons f rest ih => simp [store, ih]

theorem store_get_before (arch : Arch) (u : User) (fs : List StructField) (i m : Nat)
    (val : List Value) (hm : m < i) : (store arch u fs i val)[m]? = val[m]? := by
  induction fs generalizing i val with
  | nil => rfl
  | cons f rest ih =>
    simp only [store]
    rw [ih (i + 1) _ (by omega), List.getElem?_set_ne (by omega)]

theorem store_get_after (arch : Arch) (u : User) (fs : List StructField) (i m : Nat)
    (val : List Value) (hm : i + fs.length ≤ m) : (store arch u fs i val)[m]? = val[m]? := by
  induction fs generalizing i val with
  | nil => rfl
  | cons f rest ih =>
    simp only [List.length_cons] at hm
    simp only [store]
    rw [ih (i + 1) _ (by omega), List.getElem?_set_ne (by omega)]

theorem store_get_in (arch : Arch) (u : User) (fs : List StructField) (i k : Nat)
    (val : List Value) (f : StructField) (hf : fs[k]? = some f) (hk : i + k < val.length) :
    (store arch u fs i val)[i + k]? = some (entered arch u f (i + k)) := by
  induction fs generalizing i k val with
  | nil => simp at hf
  | cons g rest ih =>
    simp only [store]
    cases k with
    | zero =>
      simp only [List.getElem?_cons_zero, Option.some.injEq] at hf
      subst hf
      simp only [Nat.add_zero] at hk ⊢
      rw [store_get_before arch u rest (i + 1) i _ (by omega)]
      simp [List.getElem?_set_self, hk]
    | succ k =>
      simp only [List.getElem?_cons_succ] at hf
      have := ih (i + 1) k (val.set i (entered arch u g i)) hf (by simp; omega)
      simpa [Nat.add_assoc, Nat.add_comm 1 k] using this

theorem firstBad_none_iff (arch : Arch) (u : User) (fs : List StructField) (i : Nat) :
    firstBad arch u fs i = none ↔
      ∀ k f, fs[k]? = some f → intLike f.Kind = true → (Atoi arch (u.text (i + k))).2 = none := by
  induction fs generalizing i with
  | nil => simp [firstBad]
  | cons g rest ih =>
    unfold firstBad
    constructor
    · intro hnone k f hf hint
      cases k with
      | zero =>
        simp only [List.getElem?_cons_zero, Option.some.injEq] at hf
        subst hf
        simp only [hint, if_true] at hnone
        cases hat : (Atoi arch (u.text i)).2 with
        | none => simpa using hat
        | some e => simp [hat] at hnone
      | succ k =>
        simp only [List.getElem?_cons_succ] at hf
        have hrest : firstBad arch u rest (i + 1) = none := by
          by_cases hg : intLike g.Kind = true
          · simp only [hg, if_true] at hnone
            cases hat : (Atoi arch (u.text i)).2 with
            | none => simpa [hat] using hnone
            | some e => simp [hat] at hnone
          · simpa [hg] using hnone
        have := (ih (i + 1)).1 hrest k f hf hint
        simpa [Nat.add_assoc, Nat.add_comm 1 k] using this
    · intro hall
      have hrest : firstBad arch u rest (i + 1) = none := by
        refine (ih (i + 1)).2 fun k f hf hint => ?_
        have := hall (k + 1) f (by simpa using hf) hint
        simpa [Nat.add_assoc, Nat.add_comm 1 k] using this
      by_cases hg : intLike g.Kind = true
      · have h0 := hall 0 g (by simp) hg
        simp only [Nat.add_zero] at h0
        simp [hg, h0, hrest]
      · simp [hg, hrest]

/-- The whole pipeline on a struct whose tagged fields `tg`, all exported and of supported
kind, precede its untagged fields `ut`, for a session the user completes. -/
theorem run_tagged_first (arch : Arch) (u : User) (tg ut : List StructField)
    (htg : ∀ f ∈ tg, tagged f = true ∧ supported f.Kind = true)
    (hexp : ∀ f ∈ tg, f.IsExported = true)
    (hut : ∀ f ∈ ut, tagged f = false) :
    GenerateAndRunQuestionnaire arch (structOf (tg ++ ut)) (answering u) =
      match firstBad arch u tg 0 with
      | some (name, e) =>
        .returned (zeroInstance (structOf (tg ++ ut))) (some (.invalidInteger name e))
      | none =>
        .returned (.struct (store arch u tg 0 ((tg ++ ut).map fun f => zeroValue f.Kind)))
          none := by
  have hsupp : ∀ f ∈ tg ++ ut, unsupportedField f = false := by
    intro f hf
    rcases List.mem_append.1 hf with h | h
    · simp [unsupportedField, (htg f h).2]
    · simp [unsupportedField, hut f h]
  obtain ⟨hitems, hsq, hbq, herr⟩ :=
    buildLoop_supported (tg ++ ut) ⟨[], Queue.New, Queue.New, none, Heap.empty⟩ hsupp rfl
  simp only [List.nil_append, Queue.New, Heap.empty, plan_append_untagged tg ut 0 0 hut]
    at hitems hsq hbq herr
  have hfill := fillLoop_tagged arch u
    (writeAnswers u (plan tg 0 0) 0 (buildLoop (tg ++ ut) ⟨[], [], [], none, Heap.empty⟩).heap)
    (tg ++ ut) tg 0 0 0 ((tg ++ ut).map fun f => zeroValue f.Kind) [] [] htg hexp
    (fun k hk => by simp [List.getElem?_append_left hk])
    (writeAnswers_answered u tg 0 0 0 _)
  have hni : ¬ (Kind.struct = Kind.interface) := by decide
  simp only [List.append_nil] at hfill
  simp only [GenerateAndRunQuestionnaire, getFormItems, structOf, ne_eq, not_true_eq_false,
    if_false, Queue.New, Heap.empty, herr, hitems, hsq, hbq, answering, zeroInstance, if_true,
    Instance.fieldValues, hni] at hfill ⊢
  rw [hfill]
  cases firstBad arch u tg 0 with
  | none => rfl
  | some p => rfl

theorem wrap_of_fits (bits : Nat) (x : Int) (hbits : 0 < bits) (hx : fits bits x) :
    wrap bits x = x := by
  obtain ⟨hlo, hhi⟩ := hx
  have hpow : (2 : Int) ^ bits = 2 * 2 ^ (bits - 1) := by
    rw [← pow_succ']
    congr 1
    omega
  unfold wrap
  rw [Int.emod_eq_of_lt (by omega) (by omega)]
  omega

theorem bitsOf_pos (arch : Arch) (k : Kind) (hk : intLike k = true) : 0 < bitsOf arch k := by
  cases arch <;> cases k <;> simp [intLike, bitsOf, intSize] at hk ⊢

theorem plan_shape (fs : List StructField) (a b : Nat)
    (hfs : ∀ f ∈ fs, unsupportedField f = false) :
    (plan fs a b).map (fun d => (d.isConfirm, d.title)) =
      (fs.filter tagged).map fun f => (decide (f.Kind = .bool), f.Name) := by
  induction fs generalizing a b with
  | nil => rfl
  | cons f rest ih =>
    have hf := hfs f (List.mem_cons_self _ _)
    have hrest : ∀ g ∈ rest, unsupportedField g = false :=
      fun g hg => hfs g (List.mem_cons_of_mem _ hg)
    unfold plan
    by_cases htag : f.Tag = ""
    · simp [htag, tagged, ih a b hrest]
    · have hsup : supported f.Kind = true := by simpa [unsupportedField, tagged, htag] using hf
      cases hk : f.Kind <;> simp [hk, supported] at hsup <;>
        simp only [htag, hk, textLike, if_true, if_false, Bool.false_eq_true, List.map_cons,
          ih _ _ hrest] <;>
        simp [tagged, htag, hk, Descriptor.isConfirm, Descriptor.title]

theorem plan_inputs (fs : List StructField) (a b : Nat) :
    ((plan fs a b).filter fun d => !d.isConfirm).map Descriptor.title =
      (fs.filter fun f => tagged f && textLike f.Kind).map fun f => f.Name := by
  induction fs generalizing a b with
  | nil => rfl
  | cons f rest ih =>
    unfold plan
    by_cases htag : f.Tag = ""
    · rw [List.filter_cons_of_neg (by simp [tagged, htag]), if_pos htag]
      exact ih a b
    · rw [if_neg htag]
      by_cases ht : textLike f.Kind = true
      · rw [List.filter_cons_of_pos (by simp [tagged, htag, ht]), if_pos ht,
          List.filter_cons_of_pos (by rfl), List.map_cons, List.map_cons, ih]
        rfl
      · rw [List.filter_cons_of_neg (by simp [ht]), if_neg ht]
        by_cases hb : f.Kind = .bool
        · rw [if_pos hb, List.filter_cons_of_neg (by simp [Descriptor.isConfirm])]
          exact ih a (b + 1)
        · rw [if_neg hb]
          exact ih a b

theorem plan_confirms (fs : List StructField) (a b : Nat) :
    ((plan fs a b).filter Descriptor.isConfirm).map Descriptor.title =
      (fs.filter fun f => tagged f && decide (f.Kind = .bool)).map fun f => f.Name := by
  induction fs generalizing a b with
  | nil => rfl
  | cons f rest ih =>
    unfold plan
    by_cases htag : f.Tag = ""
    · rw [List.filter_cons_of_neg (by simp [tagged, htag]), if_pos htag]
      exact ih a b
    · rw [if_neg htag]
      by_cases ht : textLike f.Kind = true
      · have hb : f.Kind ≠ .bool := by
          intro hb
          simp [hb, textLike] at ht
        rw [List.filter_cons_of_neg (by simp [hb]), if_pos ht,
          List.filter_cons_of_neg (by simp [Descriptor.isConfirm])]
        exact ih (a + 1) b
      · rw [if_neg ht]
        by_cases hb : f.Kind = .bool
        · rw [List.filter_cons_of_pos (by simp [tagged, htag, hb]), if_pos hb,
            List.filter_cons_of_pos (by rfl), List.map_cons, List.map_cons, ih]
          rfl
        · rw [List.filter_cons_of_neg (by simp [hb]), if_neg hb]
          exact ih a b

theorem inputSlot_length (l : List Descriptor) :
    (l.filterMap Descriptor.inputSlot).length = (l.filter fun d => !d.isConfirm).length := by
  induction l with
  | nil => rfl
  | cons d rest ih => cases d <;> simp [Descriptor.inputSlot, Descriptor.isConfirm, ih]

theorem confirmSlot_length (l : List Descriptor) :
    (l.filterMap Descriptor.confirmSlot).length = (l.filter Descriptor.isConfirm).length := by
  induction l with
  | nil => rfl
  | cons d rest ih => cases d <;> simp [Descriptor.confirmSlot, Descriptor.isConfirm, ih]

theorem slots_length (l : List Descriptor) :
    (l.filterMap Descriptor.inputSlot).length + (l.filterMap Descriptor.confirmSlot).length =
      l.length := by
  induction l with
  | nil => rfl
  | cons d rest ih =>
    cases d <;> simp [Descriptor.inputSlot, Descriptor.confirmSlot] <;> omega

theorem getFormItems_struct (typ : GoType) (h : Heap) (hs : typ.Kind = .struct) :
    getFormItems typ h = buildLoop typ.fields ⟨[], [], [], none, h⟩ := by
  simp [getFormItems, hs, Queue.New]

theorem getFormItems_ok (typ : GoType) (h : Heap) (hok : (getFormItems typ h).err = none) :
    typ.Kind = .struct ∧ ∀ f ∈ typ.fields, unsupportedField f = false := by
  have hs : typ.Kind = .struct := by
    by_contra hne
    simp [getFormItems, hne] at hok
  refine ⟨hs, ?_⟩
  rw [getFormItems_struct typ h hs] at hok
  cases hfind : typ.fields.find? unsupportedField with
  | none =>
    intro f hf
    have := List.find?_eq_none.1 hfind f hf
    simpa using this
  | some f =>
    rw [(buildLoop_unsupported typ.fields _ f hfind).2.2.2] at hok
    simp at hok

theorem getFormItems_shape (typ : GoType) (h : Heap) (hs : typ.Kind = .struct)
    (hfs : ∀ f ∈ typ.fields, f.Tag ≠ "" → supported f.Kind = true) :
    (getFormItems typ h).err = none ∧
      (getFormItems typ h).formItems.map (fun d => (d.isConfirm, d.title)) =
        (typ.fields.filter tagged).map fun f => (decide (f.Kind = .bool), f.Name) := by
  have hsupp : ∀ f ∈ typ.fields, unsupportedField f = false := by
    intro f hf
    by_cases htag : f.Tag = ""
    · simp [unsupportedField, tagged, htag]
    · simp [unsupportedField, hfs f hf htag]
  obtain ⟨hitems, _, _, herr⟩ := buildLoop_supported typ.fields ⟨[], [], [], none, h⟩ hsupp rfl
  rw [getFormItems_struct typ h hs]
  refine ⟨herr, ?_⟩
  rw [hitems, List.nil_append]
  exact plan_shape typ.fields _ _ hsupp

theorem find_unsupported (fs : List StructField)
    (hbad : ∃ f ∈ fs, f.Tag ≠ "" ∧ supported f.Kind = false) :
    ∃ f, fs.find? unsupportedField = some f := by
  obtain ⟨f, hmem, htag, hsup⟩ := hbad
  cases hfind : fs.find? unsupportedField with
  | some g => exact ⟨g, rfl⟩
  | none =>
    have := List.find?_eq_none.1 hfind f hmem
    simp [unsupportedField, tagged, htag, hsup] at this

theorem fillLoop_frame (arch : Arch) (typ : GoType) (h : Heap) :
    ∀ (items : List Descriptor) (i : Nat) (st st' : FillState),
      fillLoop arch typ h items i st = .done st' →
      st'.val.length = st.val.length ∧
        ∀ m, i + items.length ≤ m → st'.val[m]? = st.val[m]? := by
  intro items
  induction items with
  | nil =>
    intro i st st' hdone
    simp only [fillLoop, FillResult.done.injEq] at hdone
    subst hdone
    exact ⟨rfl, fun _ _ => rfl⟩
  | cons d rest ih =>
    intro i st st' hdone
    have step : ∀ st1 : FillState, st1.val.length = st.val.length →
        (∀ m, i + 1 ≤ m → st1.val[m]? = st.val[m]?) →
        fillLoop arch typ h rest (i + 1) st1 = .done st' →
        st'.val.length = st.val.length ∧
          ∀ m, i + (d :: rest).length ≤ m → st'.val[m]? = st.val[m]? := by
      intro st1 hlen hval hrec
      obtain ⟨hl, hv⟩ := ih (i + 1) st1 st' hrec
      refine ⟨hl.trans hlen, fun m hm => ?_⟩
      simp only [List.length_cons] at hm
      rw [hv m (by omega), hval m (by omega)]
    have hset : ∀ v : Value, ∀ m, i + 1 ≤ m → (st.val.set i v)[m]? = st.val[m]? :=
      fun v m hm => List.getElem?_set_ne (by omega)
    unfold fillLoop at hdone
    split at hdone
    · simp at hdone
    · split at hdone
      all_goals
        repeat' first
          | exact step st rfl (fun _ _ => rfl) hdone
          | exact step _ (by simp) (hset _) hdone
          | exact absurd hdone (by simp)
          | split at hdone

theorem fillLoop_tags (arch : Arch) (h : Heap) (fs fs' : List StructField)
    (hsame : fs.map (fun f => (f.Name, f.PkgPath, f.Kind)) =
      fs'.map (fun f => (f.Name, f.PkgPath, f.Kind))) :
    ∀ (items : List Descriptor) (i : Nat) (st : FillState),
      fillLoop arch (structOf fs) h items i st = fillLoop arch (structOf fs') h items i st := by
  intro items
  induction items with
  | nil =>
    intro i st
    simp [fillLoop]
  | cons d rest ih =>
    intro i st
    have hi := congrArg (fun l => l[i]?) hsame
    simp only [List.getElem?_map] at hi
    unfold fillLoop
    simp only [structOf]
    cases hf : fs[i]? with
    | none =>
      cases hf' : fs'[i]? with
      | none => rfl
      | some g => simp [hf, hf'] at hi
    | some f =>
      cases hf' : fs'[i]? with
      | none => simp [hf, hf'] at hi
      | some g =>
        simp only [hf, hf', Option.map_some', Option.some.injEq, Prod.mk.injEq] at hi
        obtain ⟨hname, hpkg, hkind⟩ := hi
        simp only [StructField.IsExported, ← hkind, ← hname, ← hpkg]
        have ih' := ih (i + 1)
        simp only [structOf] at ih'
        cases f.Kind <;> simp only [ih']

theorem filter_tagged_append (tg ut : List StructField)
    (htg : ∀ f ∈ tg, tagged f = true ∧ supported f.Kind = true)
    (hut : ∀ f ∈ ut, tagged f = false) : (tg ++ ut).filter tagged = tg := by
  rw [List.filter_append, List.filter_eq_self.2 fun f hf => (htg f hf).1,
    List.filter_eq_nil_iff.2 fun f hf => by simp [hut f hf], List.append_nil]

theorem run_of_concrete (arch : Arch) (typ : GoType) (run : Engine)
    (hni : typ.Kind ≠ .interface) :
    GenerateAndRunQuestionnaire arch typ run =
      match (getFormItems typ Heap.empty).err with
      | some err => .returned (zeroInstance typ) (some err)
      | none =>
        match run (getFormItems typ Heap.empty).formItems (getFormItems typ Heap.empty).heap with
        | .error err => .returned (zeroInstance typ) (some (.engine err))
        | .ok h =>
          match fillLoop arch typ h (getFormItems typ Heap.empty).formItems 0
              ⟨(zeroInstance typ).fieldValues, (getFormItems typ Heap.empty).strFieldValues,
                (getFormItems typ Heap.empty).boolFieldValues⟩ with
          | .done st => .returned (.struct st.val) none
          | .failed err => .returned (zeroInstance typ) (some err)
          | .aborted why => .aborted why := by
  unfold GenerateAndRunQuestionnaire
  simp only [hni, if_false]

theorem run_of_interface (arch : Arch) (typ : GoType) (run : Engine)
    (hi : typ.Kind = .interface) :
    GenerateAndRunQuestionnaire arch typ run = .aborted .nilType := by
  unfold GenerateAndRunQuestionnaire
  simp only [hi, if_true]

theorem struct_ne_interface (typ : GoType) (hs : typ.Kind = .struct) :
    typ.Kind ≠ .interface := by
  rw [hs]
  decide

/-! ## The claims -/

/-- C1, as amended. Round trip: on a struct whose fields are all exported, tagged and of
kind string, signed integer or bool, when the user completes the session and the text
entered for every integer field is accepted by `strconv.Atoi` (a base-10 integer in the
range of the platform's `int`) with a value that fits the width of the field,
`GenerateAndRunQuestionnaire` returns a nil error and an instance in which every string
field is the text entered for it, every integer field the parsed integer and every bool
field the entered boolean.  The entry for the field at position `i` is the one made in
the prompt at position `i`, which is titled with the name of the field. -/
theorem roundTrip_allTagged (arch : Arch) (u : User) (fs : List StructField)
    (hfs : ∀ f ∈ fs, tagged f = true ∧ supported f.Kind = true)
    (hexp : ∀ f ∈ fs, f.IsExported = true)
    (hint : ∀ i f, fs[i]? = some f → intLike f.Kind = true →
      ∃ v, Atoi arch (u.text i) = (v, none) ∧ fits (bitsOf arch f.Kind) v) :
    ∃ vals, GenerateAndRunQuestionnaire arch (structOf fs) (answering u) =
        .returned (.struct vals) none ∧ vals.length = fs.length ∧
      ∀ i f, fs[i]? = some f →
        ((getFormItems (structOf fs) Heap.empty).formItems[i]?).map Descriptor.title =
          some f.Name ∧
        (f.Kind = .string → vals[i]? = some (.string (u.text i))) ∧
        (intLike f.Kind = true →
          ∃ v, Atoi arch (u.text i) = (v, none) ∧ vals[i]? = some (.int v)) ∧
        (f.Kind = .bool → vals[i]? = some (.bool (u.confirm i))) := by
  have hrun := run_tagged_first arch u fs [] hfs hexp (by simp)
  have hnone : firstBad arch u fs 0 = none := by
    refine (firstBad_none_iff arch u fs 0).2 fun k f hf hk => ?_
    obtain ⟨v, hv, _⟩ := hint k f hf hk
    simp [hv]
  simp only [List.append_nil, hnone] at hrun
  refine ⟨_, hrun, by simp [store_length], fun i f hf => ?_⟩
  have hi : i < fs.length := (List.getElem?_eq_some_iff.1 hf).1
  have hget := store_get_in arch u fs 0 i (fs.map fun f => zeroValue f.Kind) f hf
    (by simpa using hi)
  simp only [Nat.zero_add] at hget
  refine ⟨?_, fun hk => ?_, fun hk => ?_, fun hk => ?_⟩
  · have hd := (getFormItems_shape (structOf fs) Heap.empty rfl
      (fun g hg _ => (hfs g hg).2)).2
    have hfil : (structOf fs).fields.filter tagged = fs :=
      List.filter_eq_self.2 fun g hg => (hfs g hg).1
    rw [hfil] at hd
    have hdi := congrArg (fun l => l[i]?) hd
    simp only [List.getElem?_map, hf, Option.map_some'] at hdi
    cases hitem : (getFormItems (structOf fs) Heap.empty).formItems[i]? with
    | none => simp [hitem] at hdi
    | some d =>
      simp only [hitem, Option.map_some', Option.some.injEq, Prod.mk.injEq] at hdi
      simp [hdi.2]
  · rw [hget]
    simp [entered, hk]
  · obtain ⟨v, hv, hfit⟩ := hint i f hf hk
    refine ⟨v, hv, ?_⟩
    rw [hget]
    have hw := wrap_of_fits _ v (bitsOf_pos arch f.Kind hk) hfit
    cases hkind : f.Kind <;> simp [hkind, intLike] at hk <;>
      simp only [hkind] at hw <;> simp [entered, hkind, hv, hw]
  · rw [hget]
    simp [entered, hk]

theorem roundTrip_allTagged_witness :
    (∀ f ∈ person, tagged f = true ∧ supported f.Kind = true) ∧
      (∀ f ∈ person, f.IsExported = true) ∧
      (∀ i f, person[i]? = some f → intLike f.Kind = true →
        ∃ v, Atoi .bits64 (alice.text i) = (v, none) ∧ fits (bitsOf .bits64 f.Kind) v) ∧
      ∃ vals, GenerateAndRunQuestionnaire .bits64 (structOf person) (answering alice) =
          .returned (.struct vals) none ∧ vals.length = person.length ∧
        ∀ i f, person[i]? = some f →
          ((getFormItems (structOf person) Heap.empty).formItems[i]?).map Descriptor.title =
            some f.Name ∧
          (f.Kind = .string → vals[i]? = some (.string (alice.text i))) ∧
          (intLike f.Kind = true →
            ∃ v, Atoi .bits64 (alice.text i) = (v, none) ∧ vals[i]? = some (.int v)) ∧
          (f.Kind = .bool → vals[i]? = some (.bool (alice.confirm i))) := by
  have hparse : ∀ i f, person[i]? = some f → intLike f.Kind = true →
      ∃ v, Atoi .bits64 (alice.text i) = (v, none) ∧ fits (bitsOf .bits64 f.Kind) v := by
    intro i f hf hk
    rcases i with _ | _ | _ | i
    · simp [person] at hf
      subst hf
      simp [intLike] at hk
    · simp [person] at hf
      subst hf
      exact ⟨30, by decide, by decide⟩
    · simp [person] at hf
      subst hf
      simp [intLike] at hk
    · simp [person] at hf
  exact ⟨by decide, by decide, hparse,
    roundTrip_allTagged .bits64 alice person (by decide) (by decide) hparse⟩

/-- C1 as stated fails at two inputs.  The struct with the single tagged string field
name, which is not exported: the run does not return.  On a platform with a 32-bit `int`,
the struct with the single tagged int64 field Big and the entry 3000000000, a base-10
integer that fits 64 bits: the run returns the invalid-integer error. -/
theorem roundTrip_allTagged_counterexample :
    ((∀ f ∈ unexportedName, tagged f = true ∧ supported f.Kind = true) ∧
      (∀ f ∈ unexportedName, intLike f.Kind = false) ∧
      GenerateAndRunQuestionnaire .bits64 (structOf unexportedName) (answering alice) =
        .aborted .unexportedField) ∧
    ((∀ f ∈ wide, tagged f = true ∧ supported f.Kind = true) ∧
      Atoi .bits64 (threeBillion.text 0) = (3000000000, none) ∧
      fits (bitsOf .bits32 .int64) 3000000000 ∧
      GenerateAndRunQuestionnaire .bits32 (structOf wide) (answering threeBillion) =
        .returned (.struct [.int 0])
          (some (.invalidInteger "Big" ⟨"Atoi", "3000000000", .ErrRange⟩))) := by
  refine ⟨?_, ?_⟩ <;> decide

/-- The round trip of the example: the entries Alice, 30 and yes give the instance with
Name Alice, Age 30 and Active true. -/
theorem person_alice :
    GenerateAndRunQuestionnaire .bits64 (structOf person) (answering alice) =
      .returned (.struct [.string "Alice", .int 30, .bool true]) none := by
  decide

/-- C2, at the failing input: with the untagged string field Skip before the tagged
string field Name, the entry for Name is dequeued for Skip and stored there, and Name
keeps its zero value. -/
theorem untagged_field_written :
    GenerateAndRunQuestionnaire .bits64 (structOf skipFirst) (answering alice) =
      .returned (.struct [.string "Alice", .string ""]) none := by
  decide

/-- C3, at the failing input: the tagged field Name of the returned instance is empty
although the prompt titled Name was answered Alice. -/
theorem tagged_field_missed :
    (getFormItems (structOf skipFirst) Heap.empty).formItems = [.input "Name" 0] ∧
      alice.text 0 = "Alice" ∧
      ∃ vals, GenerateAndRunQuestionnaire .bits64 (structOf skipFirst) (answering alice) =
          .returned (.struct vals) none ∧ vals[1]? = some (.string "") := by
  exact ⟨by decide, by decide, [.string "Alice", .string ""], by decide, by decide⟩

/-- C5. Atomicity on error: for every type, every word size and every engine behaviour,
whenever `GenerateAndRunQuestionnaire` returns a non-nil error the returned instance is
the zero value of the type, also when the error comes from the fill loop after earlier
fields were assigned; and when the build succeeds and the engine ends with an error, that
error is what is returned. -/
theorem error_returns_zero (arch : Arch) (typ : GoType) (run : Engine) :
    (∀ m e, GenerateAndRunQuestionnaire arch typ run = .returned m (some e) →
        m = zeroInstance typ) ∧
      ∀ e, (getFormItems typ Heap.empty).err = none →
        run (getFormItems typ Heap.empty).formItems (getFormItems typ Heap.empty).heap =
          .error e →
        GenerateAndRunQuestionnaire arch typ run =
          .returned (zeroInstance typ) (some (.engine e)) := by
  refine ⟨fun m e hm => ?_, fun e hok hrun => ?_⟩
  · by_cases hi : typ.Kind = .interface
    · rw [run_of_interface arch typ run hi] at hm
      simp at hm
    · rw [run_of_concrete arch typ run hi] at hm
      split at hm
      · simp only [Outcome.returned.injEq] at hm
        exact hm.1.symm
      · split at hm
        · simp only [Outcome.returned.injEq] at hm
          exact hm.1.symm
        · split at hm
          · simp at hm
          · simp only [Outcome.returned.injEq] at hm
            exact hm.1.symm
          · simp at hm
  · rw [run_of_concrete arch typ run
      (struct_ne_interface typ (getFormItems_ok typ Heap.empty hok).1)]
    simp only [hok, hrun]

theorem error_returns_zero_witness :
    (GenerateAndRunQuestionnaire .bits64 (structOf person) (answering aliceThirty) =
        .returned (.struct [.string "", .int 0, .bool false])
          (some (.invalidInteger "Age" ⟨"Atoi", "thirty", .ErrSyntax⟩)) ∧
      Instance.struct [.string "", .int 0, .bool false] = zeroInstance (structOf person)) ∧
    ((getFormItems (structOf person) Heap.empty).err = none ∧
      GenerateAndRunQuestionnaire .bits64 (structOf person) (failing "user aborted") =
        .returned (zeroInstance (structOf person)) (some (.engine "user aborted"))) :=
  ⟨⟨by decide,
      (error_returns_zero .bits64 (structOf person) (answering aliceThirty)).1
        (.struct [.string "", .int 0, .bool false])
        (.invalidInteger "Age" ⟨"Atoi", "thirty", .ErrSyntax⟩) (by decide)⟩,
    by decide,
    (error_returns_zero .bits64 (structOf person) (failing "user aborted")).2 "user aborted"
      (by decide) rfl⟩

/-- C6. For every struct type, `getFormItems` fails if and only if some field with a
non-empty yaml tag has a kind other than string, int, int8, int16, int32, int64 or bool;
on failure the error names the kind of the first such field in declaration order, the
descriptor list is empty and both queues are empty. -/
theorem getFormItems_fails_iff (typ : GoType) (h : Heap) (hs : typ.Kind = .struct) :
    ((getFormItems typ h).err ≠ none ↔
        ∃ f ∈ typ.fields, f.Tag ≠ "" ∧ supported f.Kind = false) ∧
      ((getFormItems typ h).err ≠ none →
        ∃ f, typ.fields.find? unsupportedField = some f ∧
          (getFormItems typ h).err = some (.unsupportedFieldType f.Kind) ∧
          (getFormItems typ h).formItems = [] ∧
          (getFormItems typ h).strFieldValues = [] ∧
          (getFormItems typ h).boolFieldValues = []) := by
  have key : (getFormItems typ h).err ≠ none →
      ∃ f, typ.fields.find? unsupportedField = some f ∧
        (getFormItems typ h).err = some (.unsupportedFieldType f.Kind) ∧
        (getFormItems typ h).formItems = [] ∧
        (getFormItems typ h).strFieldValues = [] ∧
        (getFormItems typ h).boolFieldValues = [] := by
    intro hne
    cases hfind : typ.fields.find? unsupportedField with
    | none =>
      exfalso
      apply hne
      rw [getFormItems_struct typ h hs]
      refine (buildLoop_supported typ.fields _ (fun f hf => ?_) rfl).2.2.2
      simpa using List.find?_eq_none.1 hfind f hf
    | some f =>
      obtain ⟨h1, h2, h3, h4⟩ := buildLoop_unsupported typ.fields ⟨[], [], [], none, h⟩ f hfind
      rw [getFormItems_struct typ h hs]
      exact ⟨f, rfl, h4, h1, h2, h3⟩
  refine ⟨⟨fun hne => ?_, ?_⟩, key⟩
  · obtain ⟨f, hfind, _⟩ := key hne
    have hmem := List.mem_of_find?_eq_some hfind
    have hp := List.find?_some hfind
    simp only [unsupportedField, tagged, Bool.and_eq_true, decide_eq_true_eq,
      Bool.not_eq_true'] at hp
    exact ⟨f, hmem, hp.1, hp.2⟩
  · rintro ⟨f, hmem, htag, hsup⟩ hnone
    have := (getFormItems_ok typ h hnone).2 f hmem
    simp [unsupportedField, tagged, htag, hsup] at this

theorem getFormItems_fails_iff_witness :
    (structOf mixed).Kind = .struct ∧
      (getFormItems (structOf mixed) Heap.empty).err ≠ none ∧
      ∃ f, (structOf mixed).fields.find? unsupportedField = some f ∧
        (getFormItems (structOf mixed) Heap.empty).err = some (.unsupportedFieldType f.Kind) ∧
        (getFormItems (structOf mixed) Heap.empty).formItems = [] ∧
        (getFormItems (structOf mixed) Heap.empty).strFieldValues = [] ∧
        (getFormItems (structOf mixed) Heap.empty).boolFieldValues = [] :=
  ⟨rfl, by decide,
    (getFormItems_fails_iff (structOf mixed) Heap.empty rfl).2 (by decide)⟩

/-- For every type whose kind is neither struct nor interface,
`GenerateAndRunQuestionnaire` returns the not-a-struct error carrying that kind (with the
zero value of the type); and for every type whose kind is not struct `getFormItems`
returns that error, no descriptors and two empty queues. -/
theorem notAStruct_concrete (typ : GoType) (hs : typ.Kind ≠ .struct) :
    (typ.Kind ≠ .interface → ∀ arch run, GenerateAndRunQuestionnaire arch typ run =
        .returned (zeroInstance typ) (some (.notAStruct typ.Kind))) ∧
      ∀ h, (getFormItems typ h).formItems = [] ∧
        (getFormItems typ h).strFieldValues = Queue.New ∧
        (getFormItems typ h).boolFieldValues = Queue.New ∧
        (getFormItems typ h).err = some (.notAStruct typ.Kind) := by
  refine ⟨fun hni arch run => ?_, fun h => ?_⟩
  · rw [run_of_concrete arch typ run hni]
    simp [getFormItems, hs]
  · simp [getFormItems, hs]

/-- C7, at the failing input: for a type argument of interface kind, which is not a
struct, `GenerateAndRunQuestionnaire` does not return the not-a-struct error: on every
platform and for every engine the run ends in `reflect.New(nil)` without a return, although
`getFormItems` on a type of that kind reports the not-a-struct error with kind interface,
as `GenerateAndRunQuestionnaire` does for a pointer type. -/
theorem interface_type_no_return :
    (∀ (arch : Arch) (run : Engine),
        GenerateAndRunQuestionnaire arch ⟨.interface, []⟩ run = .aborted .nilType) ∧
      (getFormItems ⟨.interface, []⟩ Heap.empty).err = some (.notAStruct .interface) ∧
      ∀ (arch : Arch) (run : Engine), GenerateAndRunQuestionnaire arch ⟨.pointer, []⟩ run =
        .returned (.zero .pointer) (some (.notAStruct .pointer)) :=
  ⟨fun _ _ => rfl, by decide, fun _ _ => rfl⟩

/-- C8. For every struct type whose tagged fields are all of kind string, signed integer
or bool, `getFormItems` succeeds and returns one prompt per tagged field and none for an
untagged field, in declaration order; each prompt is titled with the name of its field and
is a confirm for a bool field and a text input for a string or signed integer field. -/
theorem getFormItems_descriptors (typ : GoType) (h : Heap) (hs : typ.Kind = .struct)
    (hfs : ∀ f ∈ typ.fields, f.Tag ≠ "" → supported f.Kind = true) :
    (getFormItems typ h).err = none ∧
      (getFormItems typ h).formItems.map (fun d => (d.isConfirm, d.title)) =
        (typ.fields.filter tagged).map fun f => (decide (f.Kind = .bool), f.Name) :=
  getFormItems_shape typ h hs hfs

theorem getFormItems_descriptors_witness :
    (structOf sparse).Kind = .struct ∧
      (getFormItems (structOf sparse) Heap.empty).err = none ∧
      (getFormItems (structOf sparse) Heap.empty).formItems.map (fun d => (d.isConfirm, d.title)) =
        [(false, "Name"), (true, "Active")] :=
  ⟨rfl, getFormItems_descriptors (structOf sparse) Heap.empty rfl (by decide)⟩

/-- C9. Prompt plan invariant: whenever `getFormItems` succeeds, the text queue has as
many slots as there are tagged string and signed integer fields, the bool queue as many
as there are tagged bool fields, the two lengths sum to the number of descriptors, and
each queue lists, in FIFO order, the slots bound to the descriptors of its class, which
are the descriptors of the tagged fields of that class in declaration order. -/
theorem getFormItems_slots (typ : GoType) (h : Heap)
    (hok : (getFormItems typ h).err = none) :
    (getFormItems typ h).strFieldValues.length =
        (typ.fields.filter fun f => tagged f && textLike f.Kind).length ∧
      (getFormItems typ h).boolFieldValues.length =
        (typ.fields.filter fun f => tagged f && decide (f.Kind = .bool)).length ∧
      (getFormItems typ h).strFieldValues.length + (getFormItems typ h).boolFieldValues.length =
        (getFormItems typ h).formItems.length ∧
      (getFormItems typ h).strFieldValues =
        (getFormItems typ h).formItems.filterMap Descriptor.inputSlot ∧
      (getFormItems typ h).boolFieldValues =
        (getFormItems typ h).formItems.filterMap Descriptor.confirmSlot ∧
      ((getFormItems typ h).formItems.filter fun d => !d.isConfirm).map Descriptor.title =
        (typ.fields.filter fun f => tagged f && textLike f.Kind).map (fun f => f.Name) ∧
      ((getFormItems typ h).formItems.filter Descriptor.isConfirm).map Descriptor.title =
        (typ.fields.filter fun f => tagged f && decide (f.Kind = .bool)).map
          (fun f => f.Name) := by
  obtain ⟨hs, hsupp⟩ := getFormItems_ok typ h hok
  obtain ⟨hitems, hsq, hbq, _⟩ :=
    buildLoop_supported typ.fields ⟨[], [], [], none, h⟩ hsupp rfl
  simp only [List.nil_append] at hitems hsq hbq
  rw [getFormItems_struct typ h hs, hitems, hsq, hbq]
  have hin := plan_inputs typ.fields h.nstr h.nbool
  have hcf := plan_confirms typ.fields h.nstr h.nbool
  refine ⟨?_, ?_, slots_length _, rfl, rfl, hin, hcf⟩
  · rw [inputSlot_length, ← List.length_map _ Descriptor.title, hin, List.length_map]
  · rw [confirmSlot_length, ← List.length_map _ Descriptor.title, hcf, List.length_map]

theorem getFormItems_slots_witness :
    (getFormItems (structOf person) Heap.empty).err = none ∧
      (getFormItems (structOf person) Heap.empty).strFieldValues = [0, 1] ∧
      (getFormItems (structOf person) Heap.empty).boolFieldValues = [0] ∧
      (getFormItems (structOf person) Heap.empty).formItems =
        [.input "Name" 0, .input "Age" 1, .confirm "Active" 0] ∧
      (getFormItems (structOf person) Heap.empty).strFieldValues =
        (getFormItems (structOf person) Heap.empty).formItems.filterMap Descriptor.inputSlot :=
  ⟨by decide, by decide, by decide, by decide,
    (getFormItems_slots (structOf person) Heap.empty (by decide)).2.2.2.1⟩

/-- C10, at the failing input: for the int8 field Level the text 300 is accepted by
`strconv.Atoi` as the integer 300, the run succeeds, and the field holds 44. -/
theorem narrow_field_truncated :
    Atoi .bits64 (threeHundred.text 0) = (300, none) ∧
      GenerateAndRunQuestionnaire .bits64 (structOf narrow) (answering threeHundred) =
        .returned (.struct [.int 44]) none := by
  exact ⟨by decide, by decide⟩

/-- C11. For every struct type with a tagged field of unsupported kind,
`GenerateAndRunQuestionnaire` returns the unsupported-field-type error for the first such
field together with the zero instance, and this outcome is the same for every engine
behaviour: the run operation has no part in it. -/
theorem unsupported_before_run (typ : GoType) (hs : typ.Kind = .struct)
    (hbad : ∃ f ∈ typ.fields, f.Tag ≠ "" ∧ supported f.Kind = false) :
    ∃ f, typ.fields.find? unsupportedField = some f ∧
      ∀ (arch : Arch) (run : Engine), GenerateAndRunQuestionnaire arch typ run =
        .returned (zeroInstance typ) (some (.unsupportedFieldType f.Kind)) := by
  obtain ⟨f, hfind⟩ := find_unsupported typ.fields hbad
  refine ⟨f, hfind, fun arch run => ?_⟩
  have herr := (buildLoop_unsupported typ.fields ⟨[], [], [], none, Heap.empty⟩ f hfind).2.2.2
  rw [run_of_concrete arch typ run (struct_ne_interface typ hs)]
  simp only [getFormItems_struct typ Heap.empty hs, herr]

theorem unsupported_before_run_witness :
    (structOf mixed).Kind = .struct ∧
      (∃ f ∈ (structOf mixed).fields, f.Tag ≠ "" ∧ supported f.Kind = false) ∧
      ∃ f, (structOf mixed).fields.find? unsupportedField = some f ∧
        ∀ (arch : Arch) (run : Engine), GenerateAndRunQuestionnaire arch (structOf mixed) run =
          .returned (zeroInstance (structOf mixed)) (some (.unsupportedFieldType f.Kind)) :=
  ⟨rfl, ⟨⟨"Ratio", "", .float64, "ratio"⟩, by decide, by decide, by decide⟩,
    unsupported_before_run (structOf mixed) rfl
      ⟨⟨"Ratio", "", .float64, "ratio"⟩, by decide, by decide, by decide⟩⟩

/-- C12, at the failing inputs: the build succeeds on both structs and no integer is
entered; with an untagged bool field before the tagged string field the fill loop
dequeues from the empty bool queue, and with an untagged float64 field before it the
fill loop ends with the text slot still in its queue. -/
theorem queue_discipline_broken :
    (getFormItems (structOf boolFirst) Heap.empty).err = none ∧
      GenerateAndRunQuestionnaire .bits64 (structOf boolFirst) (answering alice) =
        .aborted .emptyQueue ∧
      (getFormItems (structOf floatFirst) Heap.empty).err = none ∧
      fillLoop .bits64 (structOf floatFirst)
          (writeAnswers alice (getFormItems (structOf floatFirst) Heap.empty).formItems 0
            (getFormItems (structOf floatFirst) Heap.empty).heap)
          (getFormItems (structOf floatFirst) Heap.empty).formItems 0
          ⟨(zeroInstance (structOf floatFirst)).fieldValues,
            (getFormItems (structOf floatFirst) Heap.empty).strFieldValues,
            (getFormItems (structOf floatFirst) Heap.empty).boolFieldValues⟩ =
        .done ⟨[.zero .float64, .string ""], [0], []⟩ := by
  exact ⟨by decide, by decide, by decide, by decide⟩

/-- C13. With `k` the number of descriptors the build returned, which is the number of
tagged fields, the fill loop works on the fields at positions `0 .. k-1` only and its
result does not depend on the tags (it is the same for field lists that agree on name,
package path and kind): in every instance returned with a nil error, every field at
position `k` or later holds its zero value, tagged or not. -/
theorem fill_visits_first_k (arch : Arch) (typ : GoType) (run : Engine) :
    (∀ (h : Heap) (fs : List StructField) (items : List Descriptor) (i : Nat)
        (st : FillState),
        fs.map (fun f => (f.Name, f.PkgPath, f.Kind)) =
          typ.fields.map (fun f => (f.Name, f.PkgPath, f.Kind)) →
        fillLoop arch (structOf fs) h items i st =
          fillLoop arch (structOf typ.fields) h items i st) ∧
      ∀ vals, GenerateAndRunQuestionnaire arch typ run = .returned (.struct vals) none →
        (getFormItems typ Heap.empty).formItems.length = (typ.fields.filter tagged).length ∧
        vals.length = typ.fields.length ∧
        ∀ i f, typ.fields[i]? = some f →
          (getFormItems typ Heap.empty).formItems.length ≤ i →
          vals[i]? = some (zeroValue f.Kind) := by
  refine ⟨fun h fs items i st hsame => fillLoop_tags arch h fs typ.fields hsame items i st,
    fun vals hret => ?_⟩
  have hni : typ.Kind ≠ .interface := by
    intro hi
    rw [run_of_interface arch typ run hi] at hret
    simp at hret
  rw [run_of_concrete arch typ run hni] at hret
  split at hret
  · simp at hret
  · rename_i hok
    obtain ⟨hs, hsupp⟩ := getFormItems_ok typ Heap.empty hok
    have hshape := (getFormItems_shape typ Heap.empty hs (fun f hf htag => by
      have := hsupp f hf
      simpa [unsupportedField, tagged, htag] using this)).2
    have hk := congrArg List.length hshape
    simp only [List.length_map] at hk
    split at hret
    · simp at hret
    · split at hret
      · rename_i st hfill
        simp only [Outcome.returned.injEq, Instance.struct.injEq, and_true] at hret
        subst hret
        obtain ⟨hlen, hval⟩ := fillLoop_frame arch typ _ _ 0 _ st hfill
        simp only [zeroInstance, hs, if_true, Instance.fieldValues, List.length_map,
          Nat.zero_add] at hlen hval
        refine ⟨hk, hlen, fun i f hf hi => ?_⟩
        rw [hval i hi]
        simp [List.getElem?_map, hf]
      · simp at hret
      · simp at hret

theorem fill_visits_first_k_witness :
    GenerateAndRunQuestionnaire .bits64 (structOf skipFirst) (answering alice) =
        .returned (.struct [.string "Alice", .string ""]) none ∧
      (getFormItems (structOf skipFirst) Heap.empty).formItems.length = 1 ∧
      tagged ⟨"Name", "", .string, "name"⟩ = true ∧
      ([.string "Alice", .string ""] : List Value)[1]? = some (zeroValue .string) :=
  ⟨by decide, by decide, by decide,
    ((fill_visits_first_k .bits64 (structOf skipFirst) (answering alice)).2
      [.string "Alice", .string ""] (by decide)).2.2 1 ⟨"Name", "", .string, "name"⟩
      (by decide) (by decide)⟩

/-- C14, as amended. On a struct whose tagged fields, all exported and of supported kind,
precede its untagged fields, when the user completes the session and the text entered
for every integer field is accepted by `strconv.Atoi` (a base-10 integer in the range of
the platform's `int`) with a value that fits the width of the field,
`GenerateAndRunQuestionnaire` returns a nil error, every tagged field holds the value
entered in its prompt and every untagged field holds its zero value. -/
theorem roundTrip_taggedFirst (arch : Arch) (u : User) (tg ut : List StructField)
    (htg : ∀ f ∈ tg, tagged f = true ∧ supported f.Kind = true)
    (hexp : ∀ f ∈ tg, f.IsExported = true)
    (hut : ∀ f ∈ ut, tagged f = false)
    (hint : ∀ i f, tg[i]? = some f → intLike f.Kind = true →
      ∃ v, Atoi arch (u.text i) = (v, none) ∧ fits (bitsOf arch f.Kind) v) :
    ∃ vals, GenerateAndRunQuestionnaire arch (structOf (tg ++ ut)) (answering u) =
        .returned (.struct vals) none ∧ vals.length = (tg ++ ut).length ∧
      (∀ i f, tg[i]? = some f →
        ((getFormItems (structOf (tg ++ ut)) Heap.empty).formItems[i]?).map Descriptor.title =
          some f.Name ∧
        (f.Kind = .string → vals[i]? = some (.string (u.text i))) ∧
        (intLike f.Kind = true →
          ∃ v, Atoi arch (u.text i) = (v, none) ∧ vals[i]? = some (.int v)) ∧
        (f.Kind = .bool → vals[i]? = some (.bool (u.confirm i)))) ∧
      ∀ j f, ut[j]? = some f → vals[tg.length + j]? = some (zeroValue f.Kind) := by
  have hrun := run_tagged_first arch u tg ut htg hexp hut
  have hnone : firstBad arch u tg 0 = none := by
    refine (firstBad_none_iff arch u tg 0).2 fun k f hf hk => ?_
    obtain ⟨v, hv, _⟩ := hint k f hf hk
    simp [hv]
  simp only [hnone] at hrun
  refine ⟨_, hrun, by simp [store_length], fun i f hf => ?_, fun j f hf => ?_⟩
  · have hi : i < tg.length := (List.getElem?_eq_some_iff.1 hf).1
    have hget := store_get_in arch u tg 0 i ((tg ++ ut).map fun f => zeroValue f.Kind) f hf
      (by simp; omega)
    simp only [Nat.zero_add] at hget
    refine ⟨?_, fun hk => ?_, fun hk => ?_, fun hk => ?_⟩
    · have hd := (getFormItems_shape (structOf (tg ++ ut)) Heap.empty rfl (fun g hg htag => by
        rcases List.mem_append.1 hg with hg | hg
        · exact (htg g hg).2
        · have := hut g hg
          simp [tagged, htag] at this)).2
      have hfil : (structOf (tg ++ ut)).fields.filter tagged = tg :=
        filter_tagged_append tg ut htg hut
      rw [hfil] at hd
      have hdi := congrArg (fun l => l[i]?) hd
      simp only [List.getElem?_map, hf, Option.map_some'] at hdi
      cases hitem : (getFormItems (structOf (tg ++ ut)) Heap.empty).formItems[i]? with
      | none => simp [hitem] at hdi
      | some d =>
        simp only [hitem, Option.map_some', Option.some.injEq, Prod.mk.injEq] at hdi
        simp [hdi.2]
    · rw [hget]
      simp [entered, hk]
    · obtain ⟨v, hv, hfit⟩ := hint i f hf hk
      refine ⟨v, hv, ?_⟩
      rw [hget]
      have hw := wrap_of_fits _ v (bitsOf_pos arch f.Kind hk) hfit
      cases hkind : f.Kind <;> simp [hkind, intLike] at hk <;>
        simp only [hkind] at hw <;> simp [entered, hkind, hv, hw]
    · rw [hget]
      simp [entered, hk]
  · have hj : j < ut.length := (List.getElem?_eq_some_iff.1 hf).1
    rw [store_get_after arch u tg 0 (tg.length + j) _ (by omega)]
    simp [List.getElem?_map, List.getElem?_append_right, hf]

theorem roundTrip_taggedFirst_witness :
    (∀ f ∈ taggedFirst.take 2, tagged f = true ∧ supported f.Kind = true) ∧
      (∀ f ∈ taggedFirst.take 2, f.IsExported = true) ∧
      (∀ f ∈ taggedFirst.drop 2, tagged f = false) ∧
      ∃ vals, GenerateAndRunQuestionnaire .bits64
          (structOf (taggedFirst.take 2 ++ taggedFirst.drop 2)) (answering alice) =
          .returned (.struct vals) none ∧
        vals.length = (taggedFirst.take 2 ++ taggedFirst.drop 2).length ∧
        (∀ i f, (taggedFirst.take 2)[i]? = some f →
          ((getFormItems (structOf (taggedFirst.take 2 ++ taggedFirst.drop 2))
            Heap.empty).formItems[i]?).map Descriptor.title = some f.Name ∧
          (f.Kind = .string → vals[i]? = some (.string (alice.text i))) ∧
          (intLike f.Kind = true →
            ∃ v, Atoi .bits64 (alice.text i) = (v, none) ∧ vals[i]? = some (.int v)) ∧
          (f.Kind = .bool → vals[i]? = some (.bool (alice.confirm i)))) ∧
        ∀ j f, (taggedFirst.drop 2)[j]? = some f →
          vals[(taggedFirst.take 2).length + j]? = some (zeroValue f.Kind) :=
  ⟨by decide, by decide, by decide,
    roundTrip_taggedFirst .bits64 alice (taggedFirst.take 2) (taggedFirst.drop 2)
      (by decide) (by decide) (by decide) (by
        intro i f hf hk
        rcases i with _ | _ | i
        · simp [taggedFirst] at hf
          subst hf
          simp [intLike] at hk
        · simp [taggedFirst] at hf
          subst hf
          exact ⟨30, by decide, by decide⟩
        · simp [taggedFirst] at hf)⟩

/-- C14 as stated fails at two inputs, both with the tagged field before the untagged
string field Note.  With the tagged string field name, which is not exported, the run
does not return.  On a platform with a 32-bit `int`, with the tagged int64 field Big and
the entry 3000000000, a base-10 integer that fits 64 bits, the run returns the
invalid-integer error. -/
theorem roundTrip_taggedFirst_counterexample :
    ((∀ f ∈ unexportedName, tagged f = true ∧ supported f.Kind = true) ∧
      (∀ f ∈ note, tagged f = false) ∧
      (∀ f ∈ unexportedName, intLike f.Kind = false) ∧
      GenerateAndRunQuestionnaire .bits64 (structOf (unexportedName ++ note))
        (answering alice) = .aborted .unexportedField) ∧
    ((∀ f ∈ wide, tagged f = true ∧ supported f.Kind = true) ∧
      (∀ f ∈ note, tagged f = false) ∧
      Atoi .bits64 (threeBillion.text 0) = (3000000000, none) ∧
      fits (bitsOf .bits32 .int64) 3000000000 ∧
      GenerateAndRunQuestionnaire .bits32 (structOf (wide ++ note)) (answering threeBillion) =
        .returned (.struct [.int 0, .string ""])
          (some (.invalidInteger "Big" ⟨"Atoi", "3000000000", .ErrRange⟩))) := by
  refine ⟨?_, ?_⟩ <;> decide

/-- The run of the example with tagged fields first: the entries Alice and 30 fill Name
and Age, and the untagged fields Cache and Note keep their zero values. -/
theorem taggedFirst_alice :
    GenerateAndRunQuestionnaire .bits64 (structOf taggedFirst) (answering alice) =
      .returned (.struct [.string "Alice", .int 30, .zero .map, .string ""]) none := by
  decide

end Questionnaire
